import Mathlib

/-!
Verification of the ZilKit sequence-detection and encode-command-synthesis
pipeline, shallow-embedded from `src/zilkit/config.py` and
`src/zilkit/core/ffmpeg_ops.py`.  Python dicts are modelled as ordered
association lists with Python's assignment semantics (update in place,
append when new); Python floats are modelled as rationals; Python `None`
is a distinguished value.  Filenames and stems are modelled as `String` /
`List Char` (Python `\d` restricted to ASCII digits).
-/

namespace ZilKit

/-- A scalar Python value as stored in the config / preset dictionaries. -/
inductive PyVal where
  | none
  | bool (b : Bool)
  | int (n : ℤ)
  | rat (q : ℚ)
  | str (s : String)
deriving DecidableEq

/-- A Python dict of scalar values, as an insertion-ordered association list. -/
abbrev PyDict := List (String × PyVal)

/-- `d.get(k)`: first binding of `k`, if any. -/
def dictGet (d : PyDict) (k : String) : Option PyVal :=
  (d.find? (fun p => p.1 = k)).map (fun p => p.2)

/-- `d[k] = v`: replace the binding in place when the key exists (keeping
dict order, as Python does), otherwise append a new binding. -/
def dictSet (d : PyDict) (k : String) (v : PyVal) : PyDict :=
  if d.any (fun p => p.1 = k) then
    d.map (fun p => if p.1 = k then (k, v) else p)
  else
    d ++ [(k, v)]

/-- Python truthiness of a scalar value. -/
def pyTruthy : PyVal → Bool
  | .none => false
  | .bool b => b
  | .int n => n ≠ 0
  | .rat q => q ≠ 0
  | .str s => s ≠ ""

/-- Rendering of a value inside an f-string (`str(v)`).  Rationals stand in
for Python floats, so their rendering abstracts Python's float `repr`. -/
def pyStr : PyVal → String
  | .none => "None"
  | .bool b => if b then "True" else "False"
  | .int n => toString n
  | .rat q => toString q
  | .str s => s

/-- The parts of `Config`'s persisted state that the resolution algorithm of
`config.py` reads: `self._presets` (the catalog), and the
`"preset_overrides"` / `"global_overrides"` entries of `self._config`
(`Config.get_preset_overrides` / `Config.get_global_overrides` default the
missing entry to `{}`, which the empty list models). -/
structure ConfigState where
  presets : List (String × PyDict)
  presetOverrides : List (String × PyDict)
  globalOverrides : PyDict
deriving DecidableEq

/-- `Config.get_preset` (config.py lines 334-343): `self._presets.get(key)`. -/
def get_preset (st : ConfigState) (presetKey : String) : Option PyDict :=
  (st.presets.find? (fun p => p.1 = presetKey)).map (fun p => p.2)

/-- `Config.get_preset_override` (config.py lines 435-445). -/
def get_preset_override (st : ConfigState) (presetKey : String) : Option PyDict :=
  (st.presetOverrides.find? (fun p => p.1 = presetKey)).map (fun p => p.2)

/-- `Config.get_global_overrides` (config.py lines 459-465). -/
def get_global_overrides (st : ConfigState) : PyDict :=
  st.globalOverrides

/-- The override loops of `get_effective_preset_settings` (config.py lines
504-506 and 511-513): assign each non-`None` entry of `ov` into `e`. -/
def applyNonNull (e : PyDict) (ov : PyDict) : PyDict :=
  ov.foldl (fun acc kv => if kv.2 ≠ PyVal.none then dictSet acc kv.1 kv.2 else acc) e

/-- `Config.get_effective_preset_settings` (config.py lines 481-515):
line 495's `if not preset: return {}` is a truthiness guard, taken both
when the key is absent and when the stored preset dict is empty; otherwise
start from a copy of the preset, overlay the preset-specific override set,
then - unless resolving for multi-output - overlay the global override set. -/
def get_effective_preset_settings (st : ConfigState) (presetKey : String)
    (forMultiOutput : Bool) : PyDict :=
  match get_preset st presetKey with
  | Option.none => []
  | Option.some preset =>
    if preset = [] then []
    else
      let effective := preset
      let effective :=
        match get_preset_override st presetKey with
        | Option.some ov => applyNonNull effective ov
        | Option.none => effective
      if forMultiOutput then effective
      else applyNonNull effective (get_global_overrides st)

/-- The worked example of the spec: preset defaults
`{crf: 23, resolution: "full"}`, preset override `{crf: 18}`, global
override `{crf: 20, resolution: "half"}`. -/
def c1ExampleState : ConfigState :=
  { presets := [("p", [("crf", PyVal.int 23), ("resolution", PyVal.str "full")])]
    presetOverrides := [("p", [("crf", PyVal.int 18)])]
    globalOverrides := [("crf", PyVal.int 20), ("resolution", PyVal.str "half")] }

/-- A catalog carrying a present-but-empty preset dict for key `p`, with a
non-null preset-specific override: line 495's truthiness guard makes the
code return `{}` here, with no overlay applied. -/
def c1EmptyState : ConfigState :=
  { presets := [("p", [])]
    presetOverrides := [("p", [("crf", PyVal.int 18)])]
    globalOverrides := [] }

/-! ### Heap model of the dict store

Python dicts are mutable heap objects; `Config._presets` and the override
dicts inside `Config._config` are stored by reference.  To settle the
frame/aliasing claim about `get_effective_preset_settings` we re-express the
same source lines over an explicit heap of dict cells, so that `effective =
preset.copy()` is an allocation and `effective[key] = value` is a write to
the allocated cell. -/

/-- A heap address of a dict cell. -/
abbrev Addr := Nat

/-- A heap of Python dict objects; the address of a cell is its index. -/
structure Heap where
  cells : List PyDict
deriving DecidableEq

/-- Dereference an address (out-of-range reads yield the empty dict). -/
def Heap.read (h : Heap) (a : Addr) : PyDict :=
  h.cells.getD a []

/-- Allocate a fresh dict object, returning the new heap and its address. -/
def Heap.alloc (h : Heap) (d : PyDict) : Heap × Addr :=
  (⟨h.cells ++ [d]⟩, h.cells.length)

/-- Overwrite the contents of the dict object at `a`. -/
def Heap.write (h : Heap) (a : Addr) (d : PyDict) : Heap :=
  ⟨h.cells.set a d⟩

/-- `Config`'s stored state with dicts held by reference: the preset catalog
maps preset keys to addresses of preset dicts, `"preset_overrides"` maps
preset keys to addresses of override dicts, and `"global_overrides"` is the
address of the global override dict (absent when the key was never set). -/
structure ConfigStateH where
  presets : List (String × Addr)
  presetOverrides : List (String × Addr)
  globalOverrides : Option Addr
deriving DecidableEq

/-- All stored addresses are live in the heap. -/
def ConfigStateH.wf (st : ConfigStateH) (h : Heap) : Prop :=
  (∀ p ∈ st.presets, p.2 < h.cells.length) ∧
  (∀ p ∈ st.presetOverrides, p.2 < h.cells.length) ∧
  (∀ a ∈ st.globalOverrides, a < h.cells.length)

/-- Dereference every stored dict, recovering the value-level config state. -/
def ConfigStateH.deref (st : ConfigStateH) (h : Heap) : ConfigState :=
  { presets := st.presets.map (fun p => (p.1, h.read p.2))
    presetOverrides := st.presetOverrides.map (fun p => (p.1, h.read p.2))
    globalOverrides :=
      match st.globalOverrides with
      | Option.some a => h.read a
      | Option.none => [] }

/-- `Config.get_effective_preset_settings` (config.py lines 481-515) over the
heap model: line 495's truthiness guard `if not preset: return {}` fires
for an absent key and for a present-but-empty preset dict, allocating a
fresh empty dict; otherwise `preset.copy()` allocates, the override loops
write only into the allocated cell, and the stored dicts are only read. -/
def get_effective_preset_settingsH (st : ConfigStateH) (h : Heap)
    (presetKey : String) (forMultiOutput : Bool) : Heap × Addr :=
  match (st.presets.find? (fun p => p.1 = presetKey)).map (fun p => p.2) with
  | Option.none => h.alloc []
  | Option.some pa =>
    if h.read pa = [] then h.alloc []
    else
    let alloc1 := h.alloc (h.read pa)
    let h1 := alloc1.1
    let ea := alloc1.2
    let e1 :=
      match (st.presetOverrides.find? (fun p => p.1 = presetKey)).map (fun p => p.2) with
      | Option.some oa => applyNonNull (h1.read ea) (h1.read oa)
      | Option.none => h1.read ea
    let h2 := h1.write ea e1
    let e2 :=
      if forMultiOutput then e1
      else
        applyNonNull e1
          (match st.globalOverrides with
           | Option.some ga => h2.read ga
           | Option.none => [])
    (h2.write ea e2, ea)

/-! ### Pattern resolution (ffmpeg_ops.py)

`re.finditer(r'\d+', stem)` scans the stem left to right for maximal runs
of decimal digits.  `digitRunsFrom` is that scan as a recursion that emits
one `(start index, length)` pair per maximal run; `digitRuns` computes the
same list by a single structural pass with an open-run accumulator (the two
are proved equal below), so that concrete inputs evaluate by `decide`.
Python's `\d` matches Unicode decimal digits; `Char.isDigit` restricts the
model to ASCII digits. -/

/-- Maximal decimal-digit runs of `s` as `(start, length)` pairs, with `i`
the index of the head of `s`. -/
def digitRunsFrom : List Char → Nat → List (Nat × Nat)
  | [], _ => []
  | c :: cs, i =>
    if h : c.isDigit then
      (i, ((c :: cs).takeWhile Char.isDigit).length) ::
        digitRunsFrom ((c :: cs).dropWhile Char.isDigit)
          (i + ((c :: cs).takeWhile Char.isDigit).length)
    else
      digitRunsFrom cs (i + 1)
termination_by s _ => s.length
decreasing_by
  · simp only [List.dropWhile_cons, h, if_true, List.length_cons]
    exact Nat.lt_succ_of_le ((List.dropWhile_sublist Char.isDigit).length_le)
  · simp

/-- Single-pass form of the digit-run scan: `acc` is the in-progress run. -/
def digitRunsAux : List Char → Nat → Option (Nat × Nat) → List (Nat × Nat)
  | [], _, Option.none => []
  | [], _, Option.some r => [r]
  | c :: cs, i, acc =>
    if c.isDigit then
      match acc with
      | Option.some r => digitRunsAux cs (i + 1) (Option.some (r.1, r.2 + 1))
      | Option.none => digitRunsAux cs (i + 1) (Option.some (i, 1))
    else
      match acc with
      | Option.some r => r :: digitRunsAux cs (i + 1) Option.none
      | Option.none => digitRunsAux cs (i + 1) Option.none

/-- `list(re.finditer(r'\d+', stem))` (ffmpeg_ops.py line 792). -/
def digitRuns (s : List Char) : List (Nat × Nat) :=
  digitRunsAux s 0 Option.none

/-- The pattern-synthesis step of `convert_sequence_with_preset`
(ffmpeg_ops.py lines 792-807): pick the last digit run of the stem, replace
exactly it by a `%0<width>d` placeholder; `None` (the error return of lines
804-807) when the stem has no digit run. -/
def synthPatternPreset (stem suffix : List Char) : Option (List Char) :=
  match (digitRuns stem).getLast? with
  | Option.some r =>
      Option.some (stem.take r.1 ++ "%0".toList ++ (Nat.repr r.2).toList ++
        'd' :: (stem.drop (r.1 + r.2) ++ suffix))
  | Option.none => Option.none

/-- `seq_dir / filename` (the `/` abstracts the platform path separator). -/
def joinPath (dir name : List Char) : List Char := dir ++ '/' :: name

/-- Input-pattern resolution of `convert_sequence_with_preset`
(ffmpeg_ops.py line 802): the synthesized pattern joined onto the sequence
directory. -/
def resolveInputPatternPreset (dir stem suffix : List Char) : Option (List Char) :=
  (synthPatternPreset stem suffix).map (joinPath dir)

/-- The manual pattern fallback of `convert_sequence_to_video`
(ffmpeg_ops.py lines 443-454 and 461-468): the same last-digit-run
replacement, except that with no digit run it falls back to the default
pattern `frame_%04d<suffix>` (with only a logged warning) instead of
failing. -/
def synthPatternToVideo (stem suffix : List Char) : List Char :=
  match (digitRuns stem).getLast? with
  | Option.some r =>
      stem.take r.1 ++ "%0".toList ++ (Nat.repr r.2).toList ++
        'd' :: (stem.drop (r.1 + r.2) ++ suffix)
  | Option.none => "frame_%04d".toList ++ suffix

/-- Start-number resolution (ffmpeg_ops.py lines 809-813):
`sequence.start()` when the pyseq sequence provides it, else 0.  The
argument models the outcome of the external `sequence.start()` call
(`None` for the `AttributeError` / `TypeError` cases). -/
def startNumberOf (s : Option Int) : Int := s.getD 0

/-! ### Sequence and movie detection (ffmpeg_ops.py) -/

/-- A file-system path: absolute flag plus components.  pyseq sequence
members and directory entries are modelled directly as parsed paths. -/
structure FSPath where
  absolute : Bool
  comps : List String
deriving DecidableEq

/-- `Path.name`: the final component. -/
def FSPath.name (p : FSPath) : String := p.comps.getLastD ""

/-- `Path.suffix` (pathlib): the extension of the final component, from its
last `.` — empty when the `.` is the first or the last character. -/
def pySuffix (name : String) : String :=
  let cs := name.toList
  match cs.reverse.findIdx? (fun c => c = '.') with
  | Option.some j =>
    let i := cs.length - 1 - j
    if 0 < i ∧ i < cs.length - 1 then String.mk (cs.drop i) else ""
  | Option.none => ""

/-- `str.lower()`, restricted to ASCII case mapping. -/
def pyLower (s : String) : String := String.mk (s.toList.map Char.toLower)

/-- `directory / item` for possibly-relative sequence members
(ffmpeg_ops.py lines 63-66). -/
def resolveIn (dir : FSPath) (p : FSPath) : FSPath :=
  if p.absolute then p else ⟨dir.absolute, dir.comps ++ p.comps⟩

/-- `EXCLUDED_EXTENSIONS` (ffmpeg_ops.py line 20). -/
def excludedExtensions : List String :=
  [".exr", ".mp4", ".mov", ".avi", ".mkv", ".webm", ".flv", ".wmv", ".m4v"]

/-- `MOVIE_EXTENSIONS` (ffmpeg_ops.py line 23). -/
def movieExtensions : List String :=
  [".mp4", ".mov", ".avi", ".mkv", ".webm", ".flv", ".wmv", ".m4v", ".mpg",
   ".mpeg", ".m2v", ".mxf"]

/-- `find_image_sequences` (ffmpeg_ops.py lines 26-87).  The external pyseq
scan `get_sequences` supplies the candidate groups `allSequences`; `isFile`
is the file-system `is_file` test.  A candidate is kept when its first
frame's lowercased extension is not excluded, every member resolves to a
regular file, and it has more than one member; an empty candidate
(`IndexError` on `seq[0]`) is skipped. -/
def find_image_sequences (isFile : FSPath → Bool) (directory : FSPath)
    (allSequences : List (List FSPath)) : List (List FSPath) :=
  allSequences.filter fun seq =>
    match seq with
    | [] => false
    | first :: _ =>
      if pyLower (pySuffix first.name) ∈ excludedExtensions then false
      else if seq.all (fun item => isFile (resolveIn directory item)) then
        decide (seq.length > 1)
      else false

/-- `find_movie_files` (ffmpeg_ops.py lines 90-116): the regular files among
the directory entries whose lowercased extension is a movie extension. -/
def find_movie_files (isFile : FSPath → Bool) (entries : List FSPath) :
    List FSPath :=
  entries.filter fun p =>
    isFile p && decide (pyLower (pySuffix p.name) ∈ movieExtensions)

/-! ### Encode command synthesis (ffmpeg_ops.py) -/

/-- The fixed color-space normalization filter (ffmpeg_ops.py lines
299-309; Python adjacent string literals concatenate). -/
def zscaleFilter : String :=
  "zscale=rangein=full:primariesin=bt709:transferin=iec61966-2-1:matrixin=bt709:range=tv:primaries=bt709:transfer=bt709:matrix=bt709"

/-- `f"scale=iw*{resolution_scale}:ih*{resolution_scale}"` (line 292); the
rational rendering abstracts Python's float formatting. -/
def scaleTerm (s : ℚ) : String :=
  "scale=iw*" ++ toString s ++ ":ih*" ++ toString s

/-- The filter-chain construction shared verbatim by
`build_ffmpeg_command_from_preset` (lines 288-311) and
`build_ffmpeg_command_from_preset_for_movie` (lines 1010-1033): optional
scale term when the scale is not 1, then, for non-HAP codecs only, the
fixed color filter and the pixel-format cast. -/
def presetFilters (resolutionScale : ℚ) (codec : PyVal) (pixelFormat : PyVal) :
    List String :=
  (if resolutionScale ≠ 1 then [scaleTerm resolutionScale] else []) ++
    (if codec ≠ PyVal.str "hap" then
      [zscaleFilter, "format=" ++ pyStr pixelFormat]
    else [])

/-- `sep.join(parts)`. -/
def pyJoin (sep : String) : List String → String
  | [] => ""
  | [x] => x
  | x :: y :: xs => x ++ sep ++ pyJoin sep (y :: xs)

/-- The H.264 codec block (ffmpeg_ops.py lines 323-331 and 1045-1053):
fixed CRF 23, fixed preset `medium`, high profile, level 4.2, the preset's
pixel format, fast-start muxing. -/
def x264Block (pixelFormat : String) : List String :=
  ["-c:v", "libx264", "-crf", "23", "-preset", "medium", "-profile:v", "high",
   "-level", "4.2", "-pix_fmt", pixelFormat, "-movflags", "+faststart"]

/-- `build_ffmpeg_command_from_preset` (ffmpeg_ops.py lines 237-356).
`ffmpegPath` models `config.get_ffmpeg_path()` (`None` raises), errors are
the raised `RuntimeError` / `ValueError` messages. -/
def build_ffmpeg_command_from_preset (ffmpegPath : Option String)
    (inputPattern outputPath : String) (preset : PyDict) (startNumber : Int)
    (resolutionScale : Option ℚ) (framerate : Option Int) (hapChunkCount : Int) :
    Except String (List String) :=
  match ffmpegPath with
  | Option.none => Except.error "FFmpeg not available"
  | Option.some fp =>
    let codec := (dictGet preset "codec").getD PyVal.none
    if ¬ pyTruthy codec then Except.error "Preset missing 'codec' field"
    else
      let resolutionScale := resolutionScale.getD 1
      let framerate := framerate.getD 30
      let cmd := [fp, "-y"]
      let cmd := cmd ++
        (if framerate ≠ 0 then ["-framerate", toString framerate] else [])
      let cmd := cmd ++
        ["-f", "image2", "-start_number", toString startNumber, "-i", inputPattern]
      let pixelFormat := (dictGet preset "pix_fmt").getD (PyVal.str "yuv420p")
      let filters := presetFilters resolutionScale codec pixelFormat
      let cmd := cmd ++ (if filters ≠ [] then ["-vf", pyJoin "," filters] else [])
      let cmd := cmd ++ (if framerate ≠ 0 then ["-r", toString framerate] else [])
      if codec = PyVal.str "libx264" then
        Except.ok (cmd ++ x264Block (pyStr pixelFormat) ++ [outputPath])
      else if codec = PyVal.str "prores_ks" then
        let profileV := (dictGet preset "profile_v").getD PyVal.none
        let vendor := (dictGet preset "vendor").getD (PyVal.str "apl0")
        Except.ok (cmd ++ ["-c:v", "prores_ks", "-profile:v", pyStr profileV,
          "-vendor", pyStr vendor, "-pix_fmt", pyStr pixelFormat] ++ [outputPath])
      else if codec = PyVal.str "hap" then
        let hapFormat := (dictGet preset "format").getD (PyVal.str "hap")
        Except.ok (cmd ++ ["-c:v", "hap", "-format", pyStr hapFormat,
          "-chunks", toString hapChunkCount] ++ [outputPath])
      else Except.error ("Unsupported codec: " ++ pyStr codec)

/-- `build_ffmpeg_command_from_preset_for_movie` (ffmpeg_ops.py lines
969-1081): movie input instead of an image2 pattern, framerate only when
given, audio-copy flags before the output. -/
def build_ffmpeg_command_from_preset_for_movie (ffmpegPath : Option String)
    (inputMovie outputPath : String) (preset : PyDict)
    (resolutionScale : Option ℚ) (framerate : Option Int) (hapChunkCount : Int) :
    Except String (List String) :=
  match ffmpegPath with
  | Option.none => Except.error "FFmpeg not available"
  | Option.some fp =>
    let codec := (dictGet preset "codec").getD PyVal.none
    if ¬ pyTruthy codec then Except.error "Preset missing 'codec' field"
    else
      let resolutionScale := resolutionScale.getD 1
      let cmd := [fp, "-y", "-i", inputMovie]
      let pixelFormat := (dictGet preset "pix_fmt").getD (PyVal.str "yuv420p")
      let filters := presetFilters resolutionScale codec pixelFormat
      let cmd := cmd ++ (if filters ≠ [] then ["-vf", pyJoin "," filters] else [])
      let cmd := cmd ++
        (match framerate with
         | Option.some f => if f ≠ 0 then ["-r", toString f] else []
         | Option.none => [])
      if codec = PyVal.str "libx264" then
        Except.ok (cmd ++ x264Block (pyStr pixelFormat) ++
          ["-c:a", "copy"] ++ [outputPath])
      else if codec = PyVal.str "prores_ks" then
        let profileV := (dictGet preset "profile_v").getD PyVal.none
        let vendor := (dictGet preset "vendor").getD (PyVal.str "apl0")
        Except.ok (cmd ++ ["-c:v", "prores_ks", "-profile:v", pyStr profileV,
          "-vendor", pyStr vendor, "-pix_fmt", pyStr pixelFormat] ++
          ["-c:a", "copy"] ++ [outputPath])
      else if codec = PyVal.str "hap" then
        let hapFormat := (dictGet preset "format").getD (PyVal.str "hap")
        Except.ok (cmd ++ ["-c:v", "hap", "-format", pyStr hapFormat,
          "-chunks", toString hapChunkCount] ++
          ["-c:a", "copy"] ++ [outputPath])
      else Except.error ("Unsupported codec: " ++ pyStr codec)

/-! ### Process-result classification (ffmpeg_ops.py) -/

/-- ASCII whitespace as matched by `str.rstrip()`. -/
def isPySpace (c : Char) : Bool :=
  c = ' ' || c = '\t' || c = '\n' || c = '\r' || c = '\x0b' || c = '\x0c'

/-- `line.rstrip()`. -/
def pyRstrip (s : String) : String :=
  String.mk ((s.toList.reverse.dropWhile isPySpace).reverse)

/-- The stderr reader loop of `convert_sequence_with_preset` (ffmpeg_ops.py
lines 859-867): every line is rstripped, empty lines are skipped, and every
remaining line — progress lines included — is appended to `stderr_lines`. -/
def retainedLines (raw : List String) : List String :=
  (raw.map pyRstrip).filter (fun l => l ≠ "")

/-- `needle in hay` on strings (substring containment). -/
def containsTok (needle : List Char) : List Char → Bool
  | [] => needle.isEmpty
  | c :: rest => needle.isPrefixOf (c :: rest) || containsTok needle rest

/-- The progress-line heuristic (ffmpeg_ops.py line 868): any of the five
keyword tokens occurs in the lowercased line. -/
def isProgressLine (line : String) : Bool :=
  ["frame=", "fps=", "bitrate=", "time=", "speed="].any
    (fun k => containsTok k.toList (pyLower line).toList)

/-- Exit-code classification of `convert_sequence_with_preset`
(ffmpeg_ops.py lines 893-899): code 0 reports success; otherwise failure
with the last 20 captured stderr lines joined by newlines and truncated to
200 characters. -/
def classify_preset_run (returncode : Int) (seqName outName : String)
    (stderrLines : List String) : Bool × String :=
  if returncode = 0 then
    (true, "Converted " ++ seqName ++ " to " ++ outName)
  else
    (false, "Failed to convert " ++ seqName ++ ": " ++
      (pyJoin "\n" (stderrLines.drop (stderrLines.length - 20))).take 200)

/-- The failure message the spec predicts: built only from the retained
non-progress lines.  Modelled from the spec's words, for comparison with
the code's `classify_preset_run`. -/
def claimedFailureMessage (seqName : String) (stderrLines : List String) :
    String :=
  let kept := stderrLines.filter (fun l => ¬ isProgressLine l)
  "Failed to convert " ++ seqName ++ ": " ++
    (pyJoin "\n" (kept.drop (kept.length - 20))).take 200

/-! ### Output filename generation (ffmpeg_ops.py) -/

/-- `custom_text.replace(".", "")` (lines 665 and 953). -/
def pyStripDots (s : String) : String :=
  String.mk (s.toList.filter (fun c => c ≠ '.'))

/-- `re.sub(r'[_\s]*\d+$', '', stem)` with the too-short fallback
(ffmpeg_ops.py lines 649-651): strip a trailing digit run plus the
underscore/whitespace run right before it; keep the stem when the result
has fewer than 2 characters. -/
def deriveBaseName (stem : String) : String :=
  let cs := stem.toList
  let r := cs.reverse
  let stripped :=
    if (r.headD 'x').isDigit then
      ((r.dropWhile Char.isDigit).dropWhile
        (fun c => c = '_' || isPySpace c)).reverse
    else cs
  if stripped.length < 2 then stem else String.mk stripped

/-- `generate_output_filename` (ffmpeg_ops.py lines 607-678), taking the
first frame's stem; the enclosing `output_dir /` join is elided.  Parts:
derived base name, then preset suffix, period-stripped custom text and
user initials, each omitted when empty, joined by `_`, plus the preset's
container extension. -/
def generate_output_filename (stem : String) (preset : PyDict)
    (customText userInitials : String) : String :=
  let baseName := deriveBaseName stem
  let presetSuffix := (dictGet preset "suffix").getD (PyVal.str "")
  let container := (dictGet preset "container").getD (PyVal.str "mp4")
  let parts := [baseName]
  let parts := parts ++ (if pyTruthy presetSuffix then [pyStr presetSuffix] else [])
  let parts := parts ++
    (if customText ≠ "" then
      (if pyStripDots customText ≠ "" then [pyStripDots customText] else [])
    else [])
  let parts := parts ++ (if userInitials ≠ "" then [userInitials] else [])
  pyJoin "_" parts ++ "." ++ pyStr container

/-- `generate_movie_output_filename` (ffmpeg_ops.py lines 914-966): same
assembly, with the movie file's stem used directly as base name. -/
def generate_movie_output_filename (movieStem : String) (preset : PyDict)
    (customText userInitials : String) : String :=
  let baseName := movieStem
  let presetSuffix := (dictGet preset "suffix").getD (PyVal.str "")
  let container := (dictGet preset "container").getD (PyVal.str "mp4")
  let parts := [baseName]
  let parts := parts ++ (if pyTruthy presetSuffix then [pyStr presetSuffix] else [])
  let parts := parts ++
    (if customText ≠ "" then
      (if pyStripDots customText ≠ "" then [pyStripDots customText] else [])
    else [])
  let parts := parts ++ (if userInitials ≠ "" then [userInitials] else [])
  pyJoin "_" parts ++ "." ++ pyStr container

/-- A two-frame PNG scenario: the file system holds exactly the two frames
of the candidate group, as regular files under directory `d`. -/
def c6IsFile : FSPath → Bool := fun p =>
  decide (p ∈ [(⟨true, ["d", "a001.png"]⟩ : FSPath), ⟨true, ["d", "a002.png"]⟩])

/-- The scanned directory of the PNG scenario. -/
def c6Dir : FSPath := ⟨true, ["d"]⟩

/-- The candidate group of the PNG scenario (relative members). -/
def c6Seq : List FSPath := [⟨false, ["a001.png"]⟩, ⟨false, ["a002.png"]⟩]

/-- A two-frame `.mpg` scenario: `.mpg` is a movie extension that is not in
the excluded set, so the same two files form both a detected sequence and
two detected movie files. -/
def c8IsFile : FSPath → Bool := fun p =>
  decide (p ∈ [(⟨true, ["d", "a001.mpg"]⟩ : FSPath), ⟨true, ["d", "a002.mpg"]⟩])

/-- The scanned directory of the `.mpg` scenario. -/
def c8Dir : FSPath := ⟨true, ["d"]⟩

/-- The directory entries (and candidate group) of the `.mpg` scenario. -/
def c8Entries : List FSPath :=
  [⟨true, ["d", "a001.mpg"]⟩, ⟨true, ["d", "a002.mpg"]⟩]

deriving instance DecidableEq for Except

/-- A concrete H.264 preset dict (as parsed from a preset catalog entry). -/
def c4Preset : PyDict :=
  [("codec", PyVal.str "libx264"), ("pix_fmt", PyVal.str "yuv420p")]

/-- The same preset carrying a `crf` field of 23 (its default quality). -/
def c5Preset : PyDict :=
  [("codec", PyVal.str "libx264"), ("pix_fmt", PyVal.str "yuv420p"),
   ("crf", PyVal.int 23)]

/-- The command both example presets build for `in%03d.png` → `out.mp4`
with all-default arguments. -/
def x264ExampleCmd : List String :=
  ["ffmpeg", "-y", "-framerate", "30", "-f", "image2", "-start_number", "0",
   "-i", "in%03d.png", "-vf",
   "zscale=rangein=full:primariesin=bt709:transferin=iec61966-2-1:matrixin=bt709:range=tv:primaries=bt709:transfer=bt709:matrix=bt709,format=yuv420p",
   "-r", "30", "-c:v", "libx264", "-crf", "23", "-preset", "medium",
   "-profile:v", "high", "-level", "4.2", "-pix_fmt", "yuv420p", "-movflags",
   "+faststart", "out.mp4"]

/-- A config state whose preset override raises the H.264 quality to
crf 18 (within the enforced 18-28 range). -/
def c5State : ConfigState :=
  { presets := [("h264-mp4", c5Preset)]
    presetOverrides := [("h264-mp4", [("crf", PyVal.int 18)])]
    globalOverrides := [] }

/-- The worked example on the heap: cell 0 holds the preset dict, cell 1 its
override dict, cell 2 the global override dict. -/
def c10Heap : Heap :=
  ⟨[[("crf", PyVal.int 23), ("resolution", PyVal.str "full")],
    [("crf", PyVal.int 18)],
    [("crf", PyVal.int 20), ("resolution", PyVal.str "half")]]⟩

/-- The stored configuration referencing the cells of `c10Heap`. -/
def c10State : ConfigStateH :=
  ⟨[("p", 0)], [("p", 1)], some 2⟩

end ZilKit

namespace ZilKit

/-! ### Theorems -/

set_option maxRecDepth 10000

theorem heap_read_mk_append_lt (h : Heap) (d : PyDict) (b : Addr)
    (hb : b < h.cells.length) : Heap.read ⟨h.cells ++ [d]⟩ b = h.read b := by
  simp [Heap.read, List.getD, List.getElem?_append, hb]

theorem heap_read_mk_append_len (h : Heap) (d : PyDict) :
    Heap.read ⟨h.cells ++ [d]⟩ h.cells.length = d := by
  simp [Heap.read, List.getD]

theorem heap_read_write_ne (h : Heap) (a b : Addr) (d : PyDict) (hab : a ≠ b) :
    (h.write a d).read b = h.read b := by
  simp [Heap.read, Heap.write, List.getD, List.getElem?_set_ne hab]

theorem heap_read_write_self (h : Heap) (a : Addr) (d : PyDict)
    (ha : a < h.cells.length) : (h.write a d).read a = d := by
  simp [Heap.read, Heap.write, List.getD, List.getElem?_set_self, ha]

theorem heap_write_length (h : Heap) (a : Addr) (d : PyDict) :
    (h.write a d).cells.length = h.cells.length := by
  simp [Heap.write]

theorem set_append_len {α : Type} (l : List α) (c y : α) :
    (l ++ [c]).set l.length y = l ++ [y] := by
  induction l with
  | nil => rfl
  | cons x xs ih => simp [List.set, ih]

theorem find_map_deref (h : Heap) (k : String) (l : List (String × Addr)) :
    ((l.map (fun p => (p.1, h.read p.2))).find? (fun p => p.1 = k)).map (fun p => p.2) =
      (l.find? (fun p => p.1 = k)).map (fun p => h.read p.2) := by
  induction l with
  | nil => rfl
  | cons x xs ih =>
    by_cases hx : x.1 = k
    · rw [List.map_cons, List.find?_cons_of_pos _ (by simpa using hx),
        List.find?_cons_of_pos _ (by simpa using hx)]
      rfl
    · rw [List.map_cons, List.find?_cons_of_neg _ (by simpa using hx),
        List.find?_cons_of_neg _ (by simpa using hx)]
      exact ih

theorem effH_fresh (st : ConfigStateH) (h : Heap) (k : String) (fmo : Bool) :
    (get_effective_preset_settingsH st h k fmo).2 = h.cells.length := by
  unfold get_effective_preset_settingsH
  rcases hf : (st.presets.find? (fun p => p.1 = k)).map (fun p => p.2) with _ | pa
  · simp [hf, Heap.alloc]
  · by_cases hr : h.read pa = [] <;> simp [hf, hr, Heap.alloc]

theorem effH_length (st : ConfigStateH) (h : Heap) (k : String) (fmo : Bool) :
    (get_effective_preset_settingsH st h k fmo).1.cells.length = h.cells.length + 1 := by
  unfold get_effective_preset_settingsH
  rcases hf : (st.presets.find? (fun p => p.1 = k)).map (fun p => p.2) with _ | pa
  · simp [hf, Heap.alloc]
  · by_cases hr : h.read pa = [] <;> simp [hf, hr, Heap.alloc, Heap.write]

theorem effH_cells (st : ConfigStateH) (h : Heap) (k : String) (fmo : Bool) :
    ∃ d, (get_effective_preset_settingsH st h k fmo).1.cells = h.cells ++ [d] := by
  unfold get_effective_preset_settingsH
  rcases hf : (st.presets.find? (fun p => p.1 = k)).map (fun p => p.2) with _ | pa
  · exact ⟨[], by simp [hf, Heap.alloc]⟩
  · by_cases hr : h.read pa = []
    · exact ⟨[], by simp [hf, hr, Heap.alloc]⟩
    · apply Exists.intro
      simp only [hf, if_neg hr, Heap.alloc, Heap.write]
      rw [set_append_len, set_append_len]

theorem effH_frame (st : ConfigStateH) (h : Heap) (k : String) (fmo : Bool)
    (b : Addr) (hb : b < h.cells.length) :
    (get_effective_preset_settingsH st h k fmo).1.read b = h.read b := by
  obtain ⟨d, hd⟩ := effH_cells st h k fmo
  show (get_effective_preset_settingsH st h k fmo).1.cells.getD b [] = h.read b
  rw [hd]
  simp [Heap.read, List.getD, List.getElem?_append, hb]

theorem effH_value (st : ConfigStateH) (h : Heap) (k : String) (fmo : Bool)
    (hwf : st.wf h) :
    (get_effective_preset_settingsH st h k fmo).1.read
      (get_effective_preset_settingsH st h k fmo).2 =
      get_effective_preset_settings (st.deref h) k fmo := by
  obtain ⟨hwp, hwo, hwg⟩ := hwf
  unfold get_effective_preset_settingsH get_effective_preset_settings
  rcases hfind : st.presets.find? (fun p => p.1 = k) with _ | pp
  · have hpure : get_preset (st.deref h) k = Option.none := by
      show ((st.presets.map _).find? _).map _ = _
      rw [find_map_deref, hfind]; rfl
    simp only [hfind, hpure, Option.map_none', Heap.alloc]
    exact heap_read_mk_append_len h []
  · have hppLt : pp.2 < h.cells.length := hwp pp (List.mem_of_find?_eq_some hfind)
    have hpure : get_preset (st.deref h) k = some (h.read pp.2) := by
      show ((st.presets.map _).find? _).map _ = _
      rw [find_map_deref, hfind]; rfl
    have hglobal : get_global_overrides (st.deref h) =
        (match st.globalOverrides with
         | Option.some a => h.read a
         | Option.none => []) := rfl
    by_cases hr : h.read pp.2 = []
    · simp only [hfind, hpure, Option.map_some', if_pos hr, Heap.alloc]
      exact heap_read_mk_append_len h []
    · simp only [hfind, hpure, Option.map_some', if_neg hr, Heap.alloc,
        Heap.write, hglobal]
      rcases hfind2 : st.presetOverrides.find? (fun p => p.1 = k) with _ | oo
      · have hpo : get_preset_override (st.deref h) k = Option.none := by
          show ((st.presetOverrides.map _).find? _).map _ = _
          rw [find_map_deref, hfind2]; rfl
        simp only [hfind2, hpo, Option.map_none', heap_read_mk_append_len]
        rw [set_append_len]
        rcases hgo : st.globalOverrides with _ | ga
        · simp only [hgo]
          rw [set_append_len]
          cases fmo <;> simp [heap_read_mk_append_len, Heap.read]
        · have hgaLt : ga < h.cells.length := hwg ga (by rw [hgo]; rfl)
          simp only [hgo, heap_read_mk_append_lt _ _ _ hgaLt]
          rw [set_append_len]
          cases fmo <;> simp [heap_read_mk_append_len, Heap.read]
      · have hooLt : oo.2 < h.cells.length := hwo oo (List.mem_of_find?_eq_some hfind2)
        have hpo : get_preset_override (st.deref h) k = some (h.read oo.2) := by
          show ((st.presetOverrides.map _).find? _).map _ = _
          rw [find_map_deref, hfind2]; rfl
        simp only [hfind2, hpo, Option.map_some', heap_read_mk_append_len,
          heap_read_mk_append_lt _ _ _ hooLt]
        rw [set_append_len]
        rcases hgo : st.globalOverrides with _ | ga
        · simp only [hgo]
          rw [set_append_len]
          cases fmo <;> simp [heap_read_mk_append_len, Heap.read]
        · have hgaLt : ga < h.cells.length := hwg ga (by rw [hgo]; rfl)
          simp only [hgo, heap_read_mk_append_lt _ _ _ hgaLt]
          rw [set_append_len]
          cases fmo <;> simp [heap_read_mk_append_len, Heap.read]

theorem digitRunsFrom_cons_pos (c : Char) (cs : List Char) (i : Nat)
    (hc : c.isDigit) :
    digitRunsFrom (c :: cs) i =
      (i, (cs.takeWhile Char.isDigit).length + 1) ::
        digitRunsFrom (cs.dropWhile Char.isDigit)
          (i + ((cs.takeWhile Char.isDigit).length + 1)) := by
  rw [digitRunsFrom]
  simp [hc, List.takeWhile_cons, List.dropWhile_cons, Nat.add_comm]

theorem digitRunsFrom_cons_neg (c : Char) (cs : List Char) (i : Nat)
    (hc : ¬ c.isDigit) :
    digitRunsFrom (c :: cs) i = digitRunsFrom cs (i + 1) := by
  rw [digitRunsFrom]
  simp [hc]

theorem digitRunsAux_spec (s : List Char) : ∀ i,
    digitRunsAux s i Option.none = digitRunsFrom s i ∧
    ∀ st len, digitRunsAux s i (Option.some (st, len)) =
      (st, len + (s.takeWhile Char.isDigit).length) ::
        digitRunsFrom (s.dropWhile Char.isDigit)
          (i + (s.takeWhile Char.isDigit).length) := by
  induction s with
  | nil =>
    intro i
    refine ⟨by simp [digitRunsAux, digitRunsFrom], fun st len => ?_⟩
    simp [digitRunsAux, digitRunsFrom]
  | cons c cs ih =>
    intro i
    by_cases hc : c.isDigit
    · refine ⟨?_, fun st len => ?_⟩
      · simp only [digitRunsAux, hc, if_true]
        rw [(ih (i + 1)).2 i 1, digitRunsFrom_cons_pos c cs i hc]
        simp [List.takeWhile_cons, List.dropWhile_cons, hc, Nat.add_comm,
          Nat.add_assoc, Nat.add_left_comm]
      · simp only [digitRunsAux, hc, if_true]
        rw [(ih (i + 1)).2 st (len + 1)]
        simp [List.takeWhile_cons, List.dropWhile_cons, hc, Nat.add_comm,
          Nat.add_assoc, Nat.add_left_comm]
    · refine ⟨?_, fun st len => ?_⟩
      · have h1 : digitRunsAux (c :: cs) i Option.none =
            digitRunsAux cs (i + 1) Option.none := by
          simp [digitRunsAux, hc]
        rw [h1, (ih (i + 1)).1, digitRunsFrom_cons_neg c cs i hc]
      · have h2 : digitRunsAux (c :: cs) i (Option.some (st, len)) =
            (st, len) :: digitRunsAux cs (i + 1) Option.none := by
          simp [digitRunsAux, hc]
        rw [h2, (ih (i + 1)).1]
        simp [List.takeWhile_cons, List.dropWhile_cons, hc,
          digitRunsFrom_cons_neg c cs i hc]

theorem digitRunsFrom_cons_pos' (c : Char) (cs : List Char) (i : Nat)
    (hc : c.isDigit) :
    digitRunsFrom (c :: cs) i =
      (i, ((c :: cs).takeWhile Char.isDigit).length) ::
        digitRunsFrom ((c :: cs).dropWhile Char.isDigit)
          (i + ((c :: cs).takeWhile Char.isDigit).length) := by
  rw [digitRunsFrom]
  simp [hc]

theorem digitRunsFrom_eq_nil (s : List Char) (h : ∀ c ∈ s, ¬ c.isDigit) :
    ∀ i, digitRunsFrom s i = [] := by
  induction s with
  | nil => intro i; simp [digitRunsFrom]
  | cons c cs ih =>
    intro i
    have hc : ¬ c.isDigit := h c (List.mem_cons_self c cs)
    rw [digitRunsFrom_cons_neg c cs i hc]
    exact ih (fun x hx => h x (List.mem_cons_of_mem c hx)) (i + 1)

theorem dropWhile_head_not (p : Char → Bool) (l : List Char) (x : Char)
    (xs : List Char) (h : l.dropWhile p = x :: xs) : ¬ p x := by
  induction l with
  | nil => simp [List.dropWhile] at h
  | cons c cs ih =>
    rw [List.dropWhile_cons] at h
    by_cases hc : p c
    · rw [if_pos hc] at h; exact ih h
    · rw [if_neg hc] at h
      injection h with h1 h2
      rw [← h1]
      exact hc

theorem digitRunsFrom_last_run :
    ∀ (n : Nat) (s : List Char), s.length ≤ n → ∀ i, (∃ c ∈ s, c.isDigit) →
    ∃ A D B, s = A ++ D ++ B ∧ D ≠ [] ∧ (∀ c ∈ D, c.isDigit) ∧
      (∀ c ∈ B, ¬ c.isDigit) ∧
      (A = [] ∨ ∃ Ap a, A = Ap ++ [a] ∧ ¬ a.isDigit) ∧
      (digitRunsFrom s i).getLast? = some (i + A.length, D.length) := by
  intro n
  induction n with
  | zero =>
    intro s hs i hdig
    have hnil : s = [] := List.length_eq_zero.mp (Nat.le_zero.mp hs)
    subst hnil
    rcases hdig with ⟨c, hcmem, _⟩
    exact absurd hcmem (List.not_mem_nil c)
  | succ n ih =>
    intro s hs i hdig
    cases s with
    | nil =>
      rcases hdig with ⟨c, hcmem, _⟩
      exact absurd hcmem (List.not_mem_nil c)
    | cons c cs =>
      by_cases hc : c.isDigit
      · have hsplit : (c :: cs).takeWhile Char.isDigit ++
            (c :: cs).dropWhile Char.isDigit = c :: cs :=
          List.takeWhile_append_dropWhile _ _
        have hrunDigit : ∀ x ∈ (c :: cs).takeWhile Char.isDigit, x.isDigit :=
          fun x hx => List.mem_takeWhile_imp hx
        have htw : (c :: cs).takeWhile Char.isDigit =
            c :: cs.takeWhile Char.isDigit := by
          simp [List.takeWhile_cons, hc]
        have hrestLe : ((c :: cs).dropWhile Char.isDigit).length ≤ cs.length := by
          rw [List.dropWhile_cons, if_pos hc]
          exact (List.dropWhile_sublist Char.isDigit).length_le
        by_cases hrd : ∃ x ∈ (c :: cs).dropWhile Char.isDigit, x.isDigit
        · obtain ⟨A', D', B', he, hDne, hDdig, hBnd, hAlast, hlast⟩ :=
            ih ((c :: cs).dropWhile Char.isDigit)
              (by simp only [List.length_cons] at hs; omega)
              (i + ((c :: cs).takeWhile Char.isDigit).length) hrd
          have hA'ne : A' ≠ [] := by
            intro hA0
            subst hA0
            rcases hD : D' with _ | ⟨d, D''⟩
            · exact hDne hD
            · have hrest : (c :: cs).dropWhile Char.isDigit = d :: (D'' ++ B') := by
                rw [he, hD]; rfl
              have hnd : ¬ Char.isDigit d := dropWhile_head_not _ _ _ _ hrest
              exact hnd (hDdig d (by rw [hD]; exact List.mem_cons_self d D''))
          obtain ⟨A'', a, hA'eq, hand⟩ : ∃ Ap a, A' = Ap ++ [a] ∧ ¬ a.isDigit := by
            rcases hAlast with h0 | h
            · exact absurd h0 hA'ne
            · exact h
          refine ⟨(c :: cs).takeWhile Char.isDigit ++ A', D', B', ?_, hDne, hDdig,
            hBnd, ?_, ?_⟩
          · conv_lhs => rw [← hsplit]
            rw [he]
            simp [List.append_assoc]
          · right
            exact ⟨(c :: cs).takeWhile Char.isDigit ++ A'', a,
              by rw [hA'eq, ← List.append_assoc], hand⟩
          · rw [digitRunsFrom_cons_pos' c cs i hc, List.getLast?_cons, hlast]
            simp [List.length_append, Nat.add_assoc]
        · push_neg at hrd
          refine ⟨[], (c :: cs).takeWhile Char.isDigit,
            (c :: cs).dropWhile Char.isDigit, by rw [List.nil_append, hsplit], ?_,
            hrunDigit, fun x hx => hrd x hx, Or.inl rfl, ?_⟩
          · rw [htw]; simp
          · rw [digitRunsFrom_cons_pos' c cs i hc,
              digitRunsFrom_eq_nil _ (fun x hx => hrd x hx) _]
            simp
      · have hdig' : ∃ x ∈ cs, x.isDigit := by
          rcases hdig with ⟨x, hx, hxd⟩
          rcases List.mem_cons.mp hx with h1 | h2
          · exact absurd (h1 ▸ hxd) hc
          · exact ⟨x, h2, hxd⟩
        obtain ⟨A', D', B', he, hDne, hDdig, hBnd, hAlast, hlast⟩ :=
          ih cs (by simp only [List.length_cons] at hs; omega) (i + 1) hdig'
        refine ⟨c :: A', D', B', by rw [he]; rfl, hDne, hDdig, hBnd, ?_, ?_⟩
        · right
          rcases hAlast with h0 | ⟨Ap, a, hEq, hand⟩
          · exact ⟨[], c, by rw [h0]; rfl, hc⟩
          · exact ⟨c :: Ap, a, by rw [hEq]; rfl, hand⟩
        · rw [digitRunsFrom_cons_neg c cs i hc, hlast]
          simp [List.length_cons, Nat.add_comm, Nat.add_assoc, Nat.add_left_comm]

/-- C10: resolving effective settings never mutates the stored configuration
state: every pre-existing dict cell is untouched, the returned dict is a
freshly allocated cell, mutating the returned dict afterwards still leaves
every stored cell untouched, the returned contents are exactly the pure
resolution of the stored state, and a repeated resolution over the
post-call heap returns the same settings. -/
theorem c10_no_state_mutation (st : ConfigStateH) (h : Heap) (k : String)
    (fmo : Bool) (hwf : st.wf h) :
    (∀ b, b < h.cells.length →
        (get_effective_preset_settingsH st h k fmo).1.read b = h.read b) ∧
    (get_effective_preset_settingsH st h k fmo).2 = h.cells.length ∧
    (∀ d b, b < h.cells.length →
        ((get_effective_preset_settingsH st h k fmo).1.write
            (get_effective_preset_settingsH st h k fmo).2 d).read b = h.read b) ∧
    (get_effective_preset_settingsH st h k fmo).1.read
        (get_effective_preset_settingsH st h k fmo).2 =
      get_effective_preset_settings (st.deref h) k fmo ∧
    (get_effective_preset_settingsH st
        (get_effective_preset_settingsH st h k fmo).1 k fmo).1.read
        (get_effective_preset_settingsH st
          (get_effective_preset_settingsH st h k fmo).1 k fmo).2 =
      (get_effective_preset_settingsH st h k fmo).1.read
        (get_effective_preset_settingsH st h k fmo).2 := by
  obtain ⟨hwp, hwo, hwg⟩ := hwf
  refine ⟨effH_frame st h k fmo, effH_fresh st h k fmo, ?_, ?_, ?_⟩
  · intro d b hb
    rw [effH_fresh st h k fmo, heap_read_write_ne _ _ _ _ (Nat.ne_of_gt hb)]
    exact effH_frame st h k fmo b hb
  · exact effH_value st h k fmo ⟨hwp, hwo, hwg⟩
  · have hwf' : st.wf (get_effective_preset_settingsH st h k fmo).1 := by
      refine ⟨fun p hp => ?_, fun p hp => ?_, fun a ha => ?_⟩ <;>
        rw [effH_length st h k fmo]
      · exact Nat.lt_succ_of_lt (hwp p hp)
      · exact Nat.lt_succ_of_lt (hwo p hp)
      · exact Nat.lt_succ_of_lt (hwg a ha)
    have hm1 : st.presets.map
        (fun p => (p.1, (get_effective_preset_settingsH st h k fmo).1.read p.2)) =
        st.presets.map (fun p => (p.1, h.read p.2)) :=
      List.map_congr_left (fun p hp => by
        rw [effH_frame st h k fmo p.2 (hwp p hp)])
    have hm2 : st.presetOverrides.map
        (fun p => (p.1, (get_effective_preset_settingsH st h k fmo).1.read p.2)) =
        st.presetOverrides.map (fun p => (p.1, h.read p.2)) :=
      List.map_congr_left (fun p hp => by
        rw [effH_frame st h k fmo p.2 (hwo p hp)])
    have hde : st.deref (get_effective_preset_settingsH st h k fmo).1 = st.deref h := by
      unfold ConfigStateH.deref
      rw [hm1, hm2]
      rcases hgo : st.globalOverrides with _ | ga
      · rfl
      · simp only [effH_frame st h k fmo ga (hwg ga (by rw [hgo]; rfl))]
    rw [effH_value st _ k fmo hwf', hde,
      effH_value st h k fmo ⟨hwp, hwo, hwg⟩]

/-- C10 witness: the no-mutation theorem applied to the concrete heap of the
worked example, plus the concrete value of the returned settings cell. -/
theorem c10_no_state_mutation_witness :
    ((∀ b, b < c10Heap.cells.length →
        (get_effective_preset_settingsH c10State c10Heap "p" false).1.read b =
          c10Heap.read b) ∧
    (get_effective_preset_settingsH c10State c10Heap "p" false).2 =
        c10Heap.cells.length ∧
    (∀ d b, b < c10Heap.cells.length →
        ((get_effective_preset_settingsH c10State c10Heap "p" false).1.write
            (get_effective_preset_settingsH c10State c10Heap "p" false).2 d).read b =
          c10Heap.read b) ∧
    (get_effective_preset_settingsH c10State c10Heap "p" false).1.read
        (get_effective_preset_settingsH c10State c10Heap "p" false).2 =
      get_effective_preset_settings (c10State.deref c10Heap) "p" false ∧
    (get_effective_preset_settingsH c10State
        (get_effective_preset_settingsH c10State c10Heap "p" false).1 "p" false).1.read
        (get_effective_preset_settingsH c10State
          (get_effective_preset_settingsH c10State c10Heap "p" false).1 "p" false).2 =
      (get_effective_preset_settingsH c10State c10Heap "p" false).1.read
        (get_effective_preset_settingsH c10State c10Heap "p" false).2) ∧
    (get_effective_preset_settingsH c10State c10Heap "p" false).1.read
        (get_effective_preset_settingsH c10State c10Heap "p" false).2 =
      [("crf", PyVal.int 20), ("resolution", PyVal.str "half")] :=
  ⟨c10_no_state_mutation c10State c10Heap "p" false
      ⟨by decide, by decide, by decide⟩,
   by decide⟩

/-- C1 (amended): for a preset present in the catalog with a non-empty
parameter bag, resolution returns the preset's defaults overlaid first
with the non-null entries of the preset-specific override set, then, only
when `for_multi_output` is false, with the non-null entries of the global
override set; a present-but-empty parameter bag takes line 495's
truthiness guard and resolves to `{}` with no overlay applied. -/
theorem c1_effective_settings_resolution (st : ConfigState) (presetKey : String)
    (forMultiOutput : Bool) (p : PyDict) (h : get_preset st presetKey = some p) :
    (p ≠ [] →
      get_effective_preset_settings st presetKey forMultiOutput =
        applyNonNull (applyNonNull p ((get_preset_override st presetKey).getD []))
          (if forMultiOutput then [] else get_global_overrides st)) ∧
    (p = [] →
      get_effective_preset_settings st presetKey forMultiOutput = []) := by
  unfold get_effective_preset_settings
  rw [h]
  dsimp only
  constructor
  · intro hp
    rw [if_neg hp]
    cases hov : get_preset_override st presetKey <;> cases forMultiOutput <;>
      simp [applyNonNull, hov]
  · intro hp
    rw [if_pos hp]

/-- C1 witness: the resolution theorem applied to the spec's worked example,
whose two resolutions evaluate to `{crf: 20, resolution: "half"}` and
`{crf: 18, resolution: "full"}`, and to the empty-preset catalog, where
resolution yields `{}`. -/
theorem c1_effective_settings_resolution_witness :
    (get_effective_preset_settings c1ExampleState "p" false =
      applyNonNull (applyNonNull [("crf", PyVal.int 23), ("resolution", PyVal.str "full")]
        ((get_preset_override c1ExampleState "p").getD []))
        (if false then [] else get_global_overrides c1ExampleState)) ∧
    get_effective_preset_settings c1ExampleState "p" false =
      [("crf", PyVal.int 20), ("resolution", PyVal.str "half")] ∧
    get_effective_preset_settings c1ExampleState "p" true =
      [("crf", PyVal.int 18), ("resolution", PyVal.str "full")] ∧
    get_effective_preset_settings c1EmptyState "p" false = [] :=
  ⟨(c1_effective_settings_resolution c1ExampleState "p" false
      [("crf", PyVal.int 23), ("resolution", PyVal.str "full")] (by decide)).1
      (by decide),
   by decide, by decide,
   (c1_effective_settings_resolution c1EmptyState "p" false [] (by decide)).2 rfl⟩

/-- C1 counterexample: with preset `p` present in the catalog as an empty
parameter bag and a preset-specific override `{crf: 18}`, the truthiness
guard of config.py line 495 returns `{}` with no overlay, while the
claimed resolution (defaults overlaid with the non-null override entries)
predicts `{crf: 18}` — the claim is false at this preset id present in
the catalog. -/
theorem c1_counterexample :
    get_preset c1EmptyState "p" = some [] ∧
    get_effective_preset_settings c1EmptyState "p" false = [] ∧
    applyNonNull (applyNonNull [] ((get_preset_override c1EmptyState "p").getD []))
      (if false then [] else get_global_overrides c1EmptyState) =
      [("crf", PyVal.int 18)] ∧
    get_effective_preset_settings c1EmptyState "p" false ≠
      applyNonNull (applyNonNull [] ((get_preset_override c1EmptyState "p").getD []))
        (if false then [] else get_global_overrides c1EmptyState) := by
  decide

/-- C2: when the first frame's stem contains at least one digit run, the
pattern-resolution step of `convert_sequence_with_preset` selects the last
(rightmost) maximal digit run — the stem decomposes as `A ++ D ++ B` with
`D` the selected nonempty all-digit run, `B` free of digits, and `A` empty
or ending in a non-digit — replaces exactly `D` by a positional `%0Nd`
placeholder with `N = D.length`, preserving `A`, `B` and the suffix
verbatim, joins the result onto the sequence directory, and the start
number is the first member's frame number, defaulting to 0 when
unavailable. -/
theorem c2_pattern_resolution (dir stem suffix : List Char)
    (hd : ∃ c ∈ stem, c.isDigit) :
    (∃ A D B, stem = A ++ D ++ B ∧ D ≠ [] ∧ (∀ c ∈ D, c.isDigit) ∧
      (∀ c ∈ B, ¬ c.isDigit) ∧
      (A = [] ∨ ∃ Ap a, A = Ap ++ [a] ∧ ¬ a.isDigit) ∧
      (digitRuns stem).getLast? = some (A.length, D.length) ∧
      resolveInputPatternPreset dir stem suffix =
        some (joinPath dir (A ++ "%0".toList ++ (Nat.repr D.length).toList ++
          'd' :: (B ++ suffix)))) ∧
    (∀ n : Int, startNumberOf (some n) = n) ∧ startNumberOf Option.none = 0 := by
  refine ⟨?_, fun n => rfl, rfl⟩
  obtain ⟨A, D, B, he, hDne, hDdig, hBnd, hAlast, hlast⟩ :=
    digitRunsFrom_last_run stem.length stem le_rfl 0 hd
  have hruns : digitRuns stem = digitRunsFrom stem 0 := (digitRunsAux_spec stem 0).1
  have hlast0 : (digitRuns stem).getLast? = some (A.length, D.length) := by
    rw [hruns, hlast]; simp
  refine ⟨A, D, B, he, hDne, hDdig, hBnd, hAlast, hlast0, ?_⟩
  unfold resolveInputPatternPreset synthPatternPreset
  rw [hlast0]
  simp only [Option.map_some']
  have ht : stem.take A.length = A := by
    rw [he, List.append_assoc]; exact List.take_left A (D ++ B)
  have hdp : stem.drop (A.length + D.length) = B := by
    rw [he, ← List.length_append]
    exact List.drop_left (A ++ D) B
  rw [ht, hdp]

/-- C2 witness: the theorem applied to the spec's worked example
`shot01_frame007.png` in directory `/clips`, together with the concrete
evaluation `/clips/shot01_frame%03d.png` and start numbers. -/
theorem c2_pattern_resolution_witness :
    ((∃ A D B, "shot01_frame007".toList = A ++ D ++ B ∧ D ≠ [] ∧
      (∀ c ∈ D, c.isDigit) ∧ (∀ c ∈ B, ¬ c.isDigit) ∧
      (A = [] ∨ ∃ Ap a, A = Ap ++ [a] ∧ ¬ a.isDigit) ∧
      (digitRuns "shot01_frame007".toList).getLast? = some (A.length, D.length) ∧
      resolveInputPatternPreset "/clips".toList "shot01_frame007".toList ".png".toList =
        some (joinPath "/clips".toList (A ++ "%0".toList ++
          (Nat.repr D.length).toList ++ 'd' :: (B ++ ".png".toList)))) ∧
    (∀ n : Int, startNumberOf (some n) = n) ∧ startNumberOf Option.none = 0) ∧
    resolveInputPatternPreset "/clips".toList "shot01_frame007".toList ".png".toList =
      some "/clips/shot01_frame%03d.png".toList ∧
    startNumberOf (some 7) = 7 :=
  ⟨c2_pattern_resolution "/clips".toList "shot01_frame007".toList ".png".toList
      (by decide),
   by decide, by decide⟩

/-- C3 (amended): when the first frame's stem contains no digit run, the
preset-based conversion path (`convert_sequence_with_preset`) signals a
resolution error, but the `convert_sequence_to_video` path instead
silently substitutes the default pattern `frame_%04d<suffix>`. -/
theorem c3_no_digit_run_amended (dir stem suffix : List Char)
    (h : ∀ c ∈ stem, ¬ c.isDigit) :
    synthPatternPreset stem suffix = Option.none ∧
    resolveInputPatternPreset dir stem suffix = Option.none ∧
    synthPatternToVideo stem suffix = "frame_%04d".toList ++ suffix := by
  have hnil : digitRuns stem = [] := by
    show digitRunsAux stem 0 Option.none = []
    rw [(digitRunsAux_spec stem 0).1]
    exact digitRunsFrom_eq_nil stem h 0
  refine ⟨?_, ?_, ?_⟩ <;>
    simp [synthPatternPreset, synthPatternToVideo, resolveInputPatternPreset, hnil]

/-- C3 amended-theorem witness at the digit-free stem `abc`. -/
theorem c3_no_digit_run_amended_witness :
    (∀ c ∈ "abc".toList, ¬ c.isDigit) ∧
    (synthPatternPreset "abc".toList ".png".toList = Option.none ∧
     resolveInputPatternPreset "/clips".toList "abc".toList ".png".toList =
       Option.none ∧
     synthPatternToVideo "abc".toList ".png".toList =
       "frame_%04d".toList ++ ".png".toList) :=
  ⟨by decide,
   c3_no_digit_run_amended "/clips".toList "abc".toList ".png".toList (by decide)⟩

/-- C3 counterexample: for the digit-free stem `abc`, the pattern-synthesis
fallback of `convert_sequence_to_video` does not signal an error — it
silently produces the substitute pattern `frame_%04d.png`, while the
preset path errors: the claim that no sequence-conversion path ever
defaults is false. -/
theorem c3_counterexample :
    (∀ c ∈ "abc".toList, ¬ c.isDigit) ∧
    synthPatternToVideo "abc".toList ".png".toList = "frame_%04d.png".toList ∧
    synthPatternPreset "abc".toList ".png".toList = Option.none := by
  refine ⟨by decide, by decide, by decide⟩

theorem zscale_ne_scaleTerm (s : ℚ) : zscaleFilter ≠ scaleTerm s := by
  intro h
  have h2 : zscaleFilter.data.head? = (scaleTerm s).data.head? := by rw [h]
  unfold zscaleFilter scaleTerm at h2
  rw [String.data_append, String.data_append, String.data_append] at h2
  simp at h2

theorem format_ne_scaleTerm (s : ℚ) (pix : PyVal) :
    "format=" ++ pyStr pix ≠ scaleTerm s := by
  intro h
  have h2 : ("format=" ++ pyStr pix).data.head? = (scaleTerm s).data.head? := by
    rw [h]
  unfold scaleTerm at h2
  rw [String.data_append, String.data_append, String.data_append,
    String.data_append] at h2
  simp at h2

theorem presetFilters_ne_nil (s : ℚ) (codec pix : PyVal)
    (h : codec ≠ PyVal.str "hap") : presetFilters s codec pix ≠ [] := by
  unfold presetFilters
  rw [if_pos h]
  simp

/-- C4: for every non-HAP codec the filter chain is exactly the optional
scale term (present iff the scale is not 1), then the fixed color filter
with its exact parameter string, then the `format=<pixel_format>` cast;
for the HAP codec neither the color filter nor a format cast is ever
emitted; and both command builders place exactly this chain as the `-vf`
value of the built command. -/
theorem c4_filter_chain (s : ℚ) (codec pix : PyVal) :
    (codec ≠ PyVal.str "hap" →
      presetFilters s codec pix =
        (if s = 1 then [] else [scaleTerm s]) ++
          ["zscale=rangein=full:primariesin=bt709:transferin=iec61966-2-1:matrixin=bt709:range=tv:primaries=bt709:transfer=bt709:matrix=bt709",
           "format=" ++ pyStr pix]) ∧
    presetFilters s (PyVal.str "hap") pix =
      (if s = 1 then [] else [scaleTerm s]) ∧
    zscaleFilter ∉ presetFilters s (PyVal.str "hap") pix ∧
    ("format=" ++ pyStr pix) ∉ presetFilters s (PyVal.str "hap") pix ∧
    (∀ fp ip op preset sn rs fr hc cmd,
      build_ffmpeg_command_from_preset (some fp) ip op preset sn rs fr hc =
        Except.ok cmd →
      (dictGet preset "codec").getD PyVal.none ≠ PyVal.str "hap" →
      ∃ pre post, cmd = pre ++ ["-vf", pyJoin ","
        (presetFilters (rs.getD 1) ((dictGet preset "codec").getD PyVal.none)
          ((dictGet preset "pix_fmt").getD (PyVal.str "yuv420p")))] ++ post) ∧
    (∀ fp im op preset rs fr hc cmd,
      build_ffmpeg_command_from_preset_for_movie (some fp) im op preset rs fr hc =
        Except.ok cmd →
      (dictGet preset "codec").getD PyVal.none ≠ PyVal.str "hap" →
      ∃ pre post, cmd = pre ++ ["-vf", pyJoin ","
        (presetFilters (rs.getD 1) ((dictGet preset "codec").getD PyVal.none)
          ((dictGet preset "pix_fmt").getD (PyVal.str "yuv420p")))] ++ post) := by
  refine ⟨?_, ?_, ?_, ?_, ?_, ?_⟩
  · intro hne
    unfold presetFilters
    by_cases h1 : s = 1 <;> simp [h1, hne, zscaleFilter]
  · unfold presetFilters
    by_cases h1 : s = 1 <;> simp [h1]
  · unfold presetFilters
    by_cases h1 : s = 1 <;> simp [h1, zscale_ne_scaleTerm s]
  · unfold presetFilters
    by_cases h1 : s = 1 <;> simp [h1, format_ne_scaleTerm s pix]
  · intro fp ip op preset sn rs fr hc cmd hok hne
    unfold build_ffmpeg_command_from_preset at hok
    dsimp only at hok
    by_cases ht : pyTruthy ((dictGet preset "codec").getD PyVal.none)
    · rw [if_neg (not_not_intro ht)] at hok
      rw [if_pos (presetFilters_ne_nil (rs.getD 1) _
        ((dictGet preset "pix_fmt").getD (PyVal.str "yuv420p")) hne)] at hok
      by_cases h264 : (dictGet preset "codec").getD PyVal.none = PyVal.str "libx264"
      · rw [if_pos h264] at hok
        injection hok with hok'
        subst hok'
        refine ⟨[fp, "-y"] ++
          (if (fr.getD 30) ≠ 0 then ["-framerate", toString (fr.getD 30)] else []) ++
          ["-f", "image2", "-start_number", toString sn, "-i", ip],
          (if (fr.getD 30) ≠ 0 then ["-r", toString (fr.getD 30)] else []) ++
            x264Block (pyStr ((dictGet preset "pix_fmt").getD (PyVal.str "yuv420p"))) ++
            [op], ?_⟩
        simp [List.append_assoc]
      · by_cases hpro :
            (dictGet preset "codec").getD PyVal.none = PyVal.str "prores_ks"
        · rw [if_neg h264, if_pos hpro] at hok
          injection hok with hok'
          subst hok'
          refine ⟨[fp, "-y"] ++
            (if (fr.getD 30) ≠ 0 then ["-framerate", toString (fr.getD 30)] else []) ++
            ["-f", "image2", "-start_number", toString sn, "-i", ip],
            (if (fr.getD 30) ≠ 0 then ["-r", toString (fr.getD 30)] else []) ++
              ["-c:v", "prores_ks", "-profile:v",
                pyStr ((dictGet preset "profile_v").getD PyVal.none),
                "-vendor", pyStr ((dictGet preset "vendor").getD (PyVal.str "apl0")),
                "-pix_fmt",
                pyStr ((dictGet preset "pix_fmt").getD (PyVal.str "yuv420p"))] ++
              [op], ?_⟩
          simp [List.append_assoc]
        · rw [if_neg h264, if_neg hpro, if_neg hne] at hok
          simp at hok
    · rw [if_pos (by simpa using ht)] at hok
      simp at hok
  · intro fp im op preset rs fr hc cmd hok hne
    unfold build_ffmpeg_command_from_preset_for_movie at hok
    dsimp only at hok
    by_cases ht : pyTruthy ((dictGet preset "codec").getD PyVal.none)
    · rw [if_neg (not_not_intro ht)] at hok
      rw [if_pos (presetFilters_ne_nil (rs.getD 1) _
        ((dictGet preset "pix_fmt").getD (PyVal.str "yuv420p")) hne)] at hok
      by_cases h264 : (dictGet preset "codec").getD PyVal.none = PyVal.str "libx264"
      · rw [if_pos h264] at hok
        injection hok with hok'
        subst hok'
        refine ⟨[fp, "-y", "-i", im],
          (match fr with
           | Option.some f => if f ≠ 0 then ["-r", toString f] else []
           | Option.none => []) ++
            x264Block (pyStr ((dictGet preset "pix_fmt").getD (PyVal.str "yuv420p"))) ++
            ["-c:a", "copy"] ++ [op], ?_⟩
        simp [List.append_assoc]
      · by_cases hpro :
            (dictGet preset "codec").getD PyVal.none = PyVal.str "prores_ks"
        · rw [if_neg h264, if_pos hpro] at hok
          injection hok with hok'
          subst hok'
          refine ⟨[fp, "-y", "-i", im],
            (match fr with
             | Option.some f => if f ≠ 0 then ["-r", toString f] else []
             | Option.none => []) ++
              ["-c:v", "prores_ks", "-profile:v",
                pyStr ((dictGet preset "profile_v").getD PyVal.none),
                "-vendor", pyStr ((dictGet preset "vendor").getD (PyVal.str "apl0")),
                "-pix_fmt",
                pyStr ((dictGet preset "pix_fmt").getD (PyVal.str "yuv420p"))] ++
              ["-c:a", "copy"] ++ [op], ?_⟩
          simp [List.append_assoc]
        · rw [if_neg h264, if_neg hpro, if_neg hne] at hok
          simp at hok
    · rw [if_pos (by simpa using ht)] at hok
      simp at hok

/-- C6: every group emitted by `find_image_sequences` has at least 2
members, every member resolves to an existing regular file, and the group
is a candidate group emitted verbatim — a group with any non-file member,
or with a single member, is never emitted (not even partially). -/
theorem c6_sequence_filter (isFile : FSPath → Bool) (dir : FSPath)
    (allSeqs : List (List FSPath)) (seq : List FSPath)
    (h : seq ∈ find_image_sequences isFile dir allSeqs) :
    2 ≤ seq.length ∧ (∀ item ∈ seq, isFile (resolveIn dir item)) ∧
      seq ∈ allSeqs := by
  obtain ⟨hmem, hcond⟩ := List.mem_filter.mp h
  rcases seq with _ | ⟨first, rest⟩
  · simp at hcond
  · dsimp only at hcond
    split_ifs at hcond with h1 h2
    refine ⟨?_, ?_, hmem⟩
    · have hl := of_decide_eq_true hcond
      omega
    · intro item hitem
      exact List.all_eq_true.mp h2 item hitem

/-- C6 witness: the PNG scenario, whose group is emitted and satisfies the
filter conditions. -/
theorem c6_sequence_filter_witness :
    c6Seq ∈ find_image_sequences c6IsFile c6Dir [c6Seq] ∧
    (2 ≤ c6Seq.length ∧ (∀ item ∈ c6Seq, c6IsFile (resolveIn c6Dir item)) ∧
      c6Seq ∈ [c6Seq]) :=
  ⟨by decide, c6_sequence_filter c6IsFile c6Dir [c6Seq] c6Seq (by decide)⟩

/-- C8 (amended): `find_image_sequences` never emits a group whose first
frame's extension is in the excluded set; the excluded set is `.exr` plus
eight of the twelve movie-container extensions, but the movie-extension
set is NOT disjoint from it — it contains those eight excluded extensions
and additionally `.mpg`, `.mpeg`, `.m2v`, `.mxf`, which are not excluded,
so a movie file with one of those four extensions can also appear inside a
detected sequence. -/
theorem c8_extension_sets_amended (isFile : FSPath → Bool) (dir : FSPath)
    (allSeqs : List (List FSPath)) (first : FSPath) (rest : List FSPath)
    (h : (first :: rest) ∈ find_image_sequences isFile dir allSeqs) :
    pyLower (pySuffix first.name) ∉ excludedExtensions ∧
    (∀ e ∈ excludedExtensions, e = ".exr" ∨ e ∈ movieExtensions) ∧
    (∀ e ∈ movieExtensions,
      e ∈ excludedExtensions ∨ e ∈ [".mpg", ".mpeg", ".m2v", ".mxf"]) ∧
    ¬ (∀ e ∈ movieExtensions, e ∉ excludedExtensions) := by
  refine ⟨?_, by decide, by decide, by decide⟩
  obtain ⟨hmem, hcond⟩ := List.mem_filter.mp h
  dsimp only at hcond
  split_ifs at hcond with h1 h2
  exact h1

/-- C8 amended-theorem witness: the PNG scenario again. -/
theorem c8_extension_sets_amended_witness :
    (⟨false, ["a001.png"]⟩ : FSPath) :: [(⟨false, ["a002.png"]⟩ : FSPath)] ∈
      find_image_sequences c6IsFile c6Dir [c6Seq] ∧
    (pyLower (pySuffix (⟨false, ["a001.png"]⟩ : FSPath).name) ∉
        excludedExtensions ∧
      (∀ e ∈ excludedExtensions, e = ".exr" ∨ e ∈ movieExtensions) ∧
      (∀ e ∈ movieExtensions,
        e ∈ excludedExtensions ∨ e ∈ [".mpg", ".mpeg", ".m2v", ".mxf"]) ∧
      ¬ (∀ e ∈ movieExtensions, e ∉ excludedExtensions)) :=
  ⟨by decide,
   c8_extension_sets_amended c6IsFile c6Dir [c6Seq] ⟨false, ["a001.png"]⟩
     [⟨false, ["a002.png"]⟩] (by decide)⟩

/-- C8 counterexample: the two extension sets are not disjoint (`.mp4` is
in both), and a `.mpg` file — a movie extension outside the excluded set —
is returned by `find_movie_files` while also being a member of a sequence
returned by `find_image_sequences` on the same directory. -/
theorem c8_counterexample :
    ".mp4" ∈ movieExtensions ∧ ".mp4" ∈ excludedExtensions ∧
    ".mpg" ∈ movieExtensions ∧ ".mpg" ∉ excludedExtensions ∧
    find_image_sequences c8IsFile c8Dir [c8Entries] = [c8Entries] ∧
    find_movie_files c8IsFile c8Entries = c8Entries ∧
    (⟨true, ["d", "a001.mpg"]⟩ : FSPath) ∈ c8Entries := by
  decide

/-- C4 witness: the filter-chain theorem applied at scale 1 to the concrete
H.264 preset, plus its builder-link conjunct at a fully evaluated build. -/
theorem c4_filter_chain_witness :
    ((PyVal.str "libx264" : PyVal) ≠ PyVal.str "hap" ∧
     presetFilters 1 (PyVal.str "libx264") (PyVal.str "yuv420p") =
       (if (1 : ℚ) = 1 then [] else [scaleTerm 1]) ++
         ["zscale=rangein=full:primariesin=bt709:transferin=iec61966-2-1:matrixin=bt709:range=tv:primaries=bt709:transfer=bt709:matrix=bt709",
          "format=" ++ pyStr (PyVal.str "yuv420p")]) ∧
    ∃ pre post,
      x264ExampleCmd = pre ++ ["-vf", pyJoin ","
        (presetFilters ((Option.none : Option ℚ).getD 1)
          ((dictGet c4Preset "codec").getD PyVal.none)
          ((dictGet c4Preset "pix_fmt").getD (PyVal.str "yuv420p")))] ++ post :=
  ⟨⟨by decide,
    (c4_filter_chain 1 (PyVal.str "libx264") (PyVal.str "yuv420p")).1 (by decide)⟩,
   (c4_filter_chain 1 (PyVal.str "libx264") (PyVal.str "yuv420p")).2.2.2.2.1
     "ffmpeg" "in%03d.png" "out.mp4" c4Preset 0 Option.none Option.none 1
     x264ExampleCmd (by decide) (by decide)⟩

/-- C5 (amended): for every H.264-family profile the built command is the
full invocation ending in the codec block `-c:v libx264 -crf 23 -preset
medium -profile:v high -level 4.2 -pix_fmt <profile pixel format>
-movflags +faststart`: the quality factor and speed preset are the
build-time constants 23 and `medium`, not values taken from the resolved
effective settings. -/
theorem c5_x264_block_amended (fp ip op : String) (preset : PyDict) (sn : Int)
    (rs : Option ℚ) (fr : Option Int) (hc : Int)
    (h264 : (dictGet preset "codec").getD PyVal.none = PyVal.str "libx264") :
    build_ffmpeg_command_from_preset (some fp) ip op preset sn rs fr hc =
      Except.ok ([fp, "-y"] ++
        (if (fr.getD 30) ≠ 0 then ["-framerate", toString (fr.getD 30)] else []) ++
        ["-f", "image2", "-start_number", toString sn, "-i", ip] ++
        ["-vf", pyJoin "," (presetFilters (rs.getD 1) (PyVal.str "libx264")
          ((dictGet preset "pix_fmt").getD (PyVal.str "yuv420p")))] ++
        (if (fr.getD 30) ≠ 0 then ["-r", toString (fr.getD 30)] else []) ++
        ["-c:v", "libx264", "-crf", "23", "-preset", "medium", "-profile:v",
         "high", "-level", "4.2", "-pix_fmt",
         pyStr ((dictGet preset "pix_fmt").getD (PyVal.str "yuv420p")),
         "-movflags", "+faststart"] ++ [op]) := by
  have ht : pyTruthy ((dictGet preset "codec").getD PyVal.none) := by
    rw [h264]; decide
  have hne : (dictGet preset "codec").getD PyVal.none ≠ PyVal.str "hap" := by
    rw [h264]; decide
  unfold build_ffmpeg_command_from_preset
  dsimp only
  rw [if_neg (not_not_intro ht),
    if_pos (presetFilters_ne_nil (rs.getD 1) _
      ((dictGet preset "pix_fmt").getD (PyVal.str "yuv420p")) hne),
    if_pos h264, h264]
  unfold x264Block
  simp [List.append_assoc]

/-- C5 amended-theorem witness: the H.264 build fully evaluated on the
concrete preset. -/
theorem c5_x264_block_amended_witness :
    (build_ffmpeg_command_from_preset (some "ffmpeg") "in%03d.png" "out.mp4"
        c5Preset 0 Option.none Option.none 1 =
      Except.ok (["ffmpeg", "-y"] ++
        (if ((Option.none : Option Int).getD 30) ≠ 0 then
          ["-framerate", toString ((Option.none : Option Int).getD 30)] else []) ++
        ["-f", "image2", "-start_number", toString (0 : Int), "-i", "in%03d.png"] ++
        ["-vf", pyJoin "," (presetFilters ((Option.none : Option ℚ).getD 1)
          (PyVal.str "libx264")
          ((dictGet c5Preset "pix_fmt").getD (PyVal.str "yuv420p")))] ++
        (if ((Option.none : Option Int).getD 30) ≠ 0 then
          ["-r", toString ((Option.none : Option Int).getD 30)] else []) ++
        ["-c:v", "libx264", "-crf", "23", "-preset", "medium", "-profile:v",
         "high", "-level", "4.2", "-pix_fmt",
         pyStr ((dictGet c5Preset "pix_fmt").getD (PyVal.str "yuv420p")),
         "-movflags", "+faststart"] ++ ["out.mp4"])) ∧
    build_ffmpeg_command_from_preset (some "ffmpeg") "in%03d.png" "out.mp4"
        c5Preset 0 Option.none Option.none 1 = Except.ok x264ExampleCmd :=
  ⟨c5_x264_block_amended "ffmpeg" "in%03d.png" "out.mp4" c5Preset 0
      Option.none Option.none 1 (by decide),
   by decide⟩

/-- C5 counterexample: with a preset override raising crf to 18, the
resolved effective settings carry `crf = 18`, yet the command built for
the preset (which `convert_sequence_with_preset` takes from `get_preset`,
not from the effective settings) still contains `-crf 23` and nowhere the
value 18 — the codec block is not built from the resolved effective
settings. -/
theorem c5_counterexample :
    dictGet (get_effective_preset_settings c5State "h264-mp4" false) "crf" =
      some (PyVal.int 18) ∧
    get_preset c5State "h264-mp4" = some c5Preset ∧
    build_ffmpeg_command_from_preset (some "ffmpeg") "in%03d.png" "out.mp4"
      c5Preset 0 Option.none Option.none 1 = Except.ok x264ExampleCmd ∧
    "-crf" ∈ x264ExampleCmd ∧ "23" ∈ x264ExampleCmd ∧
    "18" ∉ x264ExampleCmd := by
  decide

/-- C7 (amended): an exit code of 0 yields a success result; a non-zero
exit code yields a failure result whose message embeds the last 20 captured
stderr lines joined by newlines and truncated to 200 characters — where the
reader retains every non-empty rstripped line, progress lines included (the
progress classification only controls the transient console display). -/
theorem c7_run_classification_amended (rc : Int) (seqName outName : String)
    (raw : List String) (hrc : rc ≠ 0) :
    classify_preset_run 0 seqName outName (retainedLines raw) =
      (true, "Converted " ++ seqName ++ " to " ++ outName) ∧
    classify_preset_run rc seqName outName (retainedLines raw) =
      (false, "Failed to convert " ++ seqName ++ ": " ++
        (pyJoin "\n" ((retainedLines raw).drop
          ((retainedLines raw).length - 20))).take 200) ∧
    (∀ l ∈ raw, pyRstrip l ≠ "" → pyRstrip l ∈ retainedLines raw) := by
  refine ⟨by simp [classify_preset_run], by simp [classify_preset_run, hrc], ?_⟩
  intro l hl hne
  unfold retainedLines
  exact List.mem_filter.mpr
    ⟨List.mem_map_of_mem pyRstrip hl, decide_eq_true hne⟩

/-- C7 amended-theorem witness on a concrete two-line stderr capture. -/
theorem c7_run_classification_amended_witness :
    (classify_preset_run 0 "seq" "out"
        (retainedLines ["Error: bad input ", "", "frame=100 fps=25"]) =
      (true, "Converted " ++ "seq" ++ " to " ++ "out") ∧
    classify_preset_run 1 "seq" "out"
        (retainedLines ["Error: bad input ", "", "frame=100 fps=25"]) =
      (false, "Failed to convert " ++ "seq" ++ ": " ++
        (pyJoin "\n" ((retainedLines ["Error: bad input ", "", "frame=100 fps=25"]).drop
          ((retainedLines ["Error: bad input ", "", "frame=100 fps=25"]).length - 20))).take 200) ∧
    (∀ l ∈ ["Error: bad input ", "", "frame=100 fps=25"], pyRstrip l ≠ "" →
      pyRstrip l ∈ retainedLines ["Error: bad input ", "", "frame=100 fps=25"])) ∧
    classify_preset_run 1 "seq" "out"
        (retainedLines ["Error: bad input ", "", "frame=100 fps=25"]) =
      (false, "Failed to convert seq: Error: bad input\nframe=100 fps=25") :=
  ⟨c7_run_classification_amended 1 "seq" "out"
      ["Error: bad input ", "", "frame=100 fps=25"] (by decide),
   by decide⟩

/-- C7 counterexample: progress lines are retained for diagnostics — on a
capture containing the progress line `frame=100 fps=25`, the failure
message contains that progress line, and differs from the message the
claim describes (built only from non-progress lines). -/
theorem c7_counterexample :
    isProgressLine "frame=100 fps=25" = true ∧
    retainedLines ["Error: bad input ", "", "frame=100 fps=25"] =
      ["Error: bad input", "frame=100 fps=25"] ∧
    (classify_preset_run 1 "seq" "out"
        (retainedLines ["Error: bad input ", "", "frame=100 fps=25"])).2 =
      "Failed to convert seq: Error: bad input\nframe=100 fps=25" ∧
    claimedFailureMessage "seq"
        (retainedLines ["Error: bad input ", "", "frame=100 fps=25"]) =
      "Failed to convert seq: Error: bad input" ∧
    (classify_preset_run 1 "seq" "out"
        (retainedLines ["Error: bad input ", "", "frame=100 fps=25"])).2 ≠
      claimedFailureMessage "seq"
        (retainedLines ["Error: bad input ", "", "frame=100 fps=25"]) := by
  decide

/-- C9: both output-filename generators assemble
`{base}[_{suffix}][_{custom}][_{initials}].{container}` where each
bracketed part is omitted when empty and the custom text first has every
`.` stripped (so an all-periods custom text disappears); the movie path
uses the movie stem as base, the sequence path the derived base name; and
the spec's example `clip`/`h264`/`final.cut`/`AB`/`mp4` yields
`clip_h264_finalcut_AB.mp4` on both paths. -/
theorem c9_output_filename (stem suffix container custom initials : String) :
    generate_movie_output_filename stem
        [("suffix", PyVal.str suffix), ("container", PyVal.str container)]
        custom initials =
      stem ++ (if suffix = "" then "" else "_" ++ suffix) ++
        (if pyStripDots custom = "" then "" else "_" ++ pyStripDots custom) ++
        (if initials = "" then "" else "_" ++ initials) ++ "." ++ container ∧
    generate_output_filename stem
        [("suffix", PyVal.str suffix), ("container", PyVal.str container)]
        custom initials =
      deriveBaseName stem ++ (if suffix = "" then "" else "_" ++ suffix) ++
        (if pyStripDots custom = "" then "" else "_" ++ pyStripDots custom) ++
        (if initials = "" then "" else "_" ++ initials) ++ "." ++ container ∧
    generate_movie_output_filename "clip"
        [("suffix", PyVal.str "h264"), ("container", PyVal.str "mp4")]
        "final.cut" "AB" = "clip_h264_finalcut_AB.mp4" ∧
    generate_output_filename "clip"
        [("suffix", PyVal.str "h264"), ("container", PyVal.str "mp4")]
        "final.cut" "AB" = "clip_h264_finalcut_AB.mp4" := by
  refine ⟨?_, ?_, by decide, by decide⟩
  · unfold generate_movie_output_filename
    by_cases hc0 : custom = ""
    · have hcu : pyStripDots custom = "" := by rw [hc0]; rfl
      have hpe : pyStripDots "" = "" := rfl
      by_cases hs : suffix = "" <;> by_cases hi : initials = "" <;>
        simp [dictGet, pyTruthy, pyStr, pyJoin, hs, hc0, hcu, hi, hpe,
          String.append_assoc, String.append_empty, String.empty_append]
    · by_cases hcu : pyStripDots custom = "" <;> by_cases hs : suffix = "" <;>
        by_cases hi : initials = "" <;>
        simp [dictGet, pyTruthy, pyStr, pyJoin, hs, hc0, hcu, hi,
          String.append_assoc, String.append_empty, String.empty_append]
  · unfold generate_output_filename
    by_cases hc0 : custom = ""
    · have hcu : pyStripDots custom = "" := by rw [hc0]; rfl
      have hpe : pyStripDots "" = "" := rfl
      by_cases hs : suffix = "" <;> by_cases hi : initials = "" <;>
        simp [dictGet, pyTruthy, pyStr, pyJoin, hs, hc0, hcu, hi, hpe,
          String.append_assoc, String.append_empty, String.empty_append]
    · by_cases hcu : pyStripDots custom = "" <;> by_cases hs : suffix = "" <;>
        by_cases hi : initials = "" <;>
        simp [dictGet, pyTruthy, pyStr, pyJoin, hs, hc0, hcu, hi,
          String.append_assoc, String.append_empty, String.empty_append]

end ZilKit
